import Mathlib

/-!
Verification of the differential-drive dead-reckoning estimator
(`src/ros2_ws/src/control/control/localization.py`).

The Python node is embedded shallowly: machine floats are modelled as real
numbers, the node's mutable attributes become a state structure `DRState`,
each ROS callback becomes a pure state-transition function, and the periodic
`update_odometry` tick becomes a function from the state to the new state
together with the optionally emitted odometry and transform messages.
-/

namespace CoppeliaDiffDrive

/-- Truncation toward zero, as used by C `fmod` / `np.fmod`:
floor for non-negative arguments, ceiling for negative ones. -/
noncomputable def rtrunc (x : ℝ) : ℤ :=
  if 0 ≤ x then ⌊x⌋ else ⌈x⌉

/-- `np.fmod x y = x - y * trunc (x / y)`: the remainder whose sign follows
the dividend `x` (for `y > 0`). -/
noncomputable def fmod (x y : ℝ) : ℝ :=
  x - y * rtrunc (x / y)

/-- Embedding of `wrap_to_pi` from `localization.py`:
`result = np.fmod(theta + pi, 2*pi); if result < 0: result += 2*pi;
return result - pi`. -/
noncomputable def wrap_to_pi (theta : ℝ) : ℝ :=
  let result := fmod (theta + Real.pi) (2 * Real.pi)
  let result := if result < 0 then result + 2 * Real.pi else result
  result - Real.pi

/-- A quaternion as returned by `transforms3d.euler.euler2quat`
(component order `w, x, y, z`, i.e. `q[0], q[1], q[2], q[3]`). -/
structure Quat where
  w : ℝ
  x : ℝ
  y : ℝ
  z : ℝ

/-- Embedding of `transforms3d.euler.euler2quat ai aj ak` for the default
`axes='sxyz'` (so `firstaxis=0, parity=0, repetition=0, frame=0`, hence
`i=1, j=2, k=3`), following the library's formula for that case. -/
noncomputable def euler2quat (ai aj ak : ℝ) : Quat :=
  let ai := ai / 2
  let aj := aj / 2
  let ak := ak / 2
  let ci := Real.cos ai
  let si := Real.sin ai
  let cj := Real.cos aj
  let sj := Real.sin aj
  let ck := Real.cos ak
  let sk := Real.sin ak
  let cc := ci * ck
  let cs := ci * sk
  let sc := si * ck
  let ss := si * sk
  { w := cj * cc + sj * ss
    x := cj * sc - sj * cs
    y := cj * ss + sj * cc
    z := cj * cs - sj * sc }

/-- A 3-vector (used for positions, translations and twist components). -/
structure Vector3 where
  x : ℝ
  y : ℝ
  z : ℝ

/-- The fields of the published `nav_msgs/Odometry` message that the node
fills in; all other numeric fields of the ROS message default to zero, which
the explicit zero components below record. -/
structure OdomMsg where
  stamp : ℝ
  frame_id : String
  child_frame_id : String
  position : Vector3
  orientation : Quat
  twist_linear : Vector3
  twist_angular : Vector3

/-- The fields of the broadcast `geometry_msgs/TransformStamped`. -/
structure TransformMsg where
  stamp : ℝ
  frame_id : String
  child_frame_id : String
  translation : Vector3
  rotation : Quat

/-- The mutable attributes of the `DeadReckoning` node: kinematic
parameters, pose accumulator, latest wheel angular velocities, and the
simulation-clock tracker (`sim_time`, `last_sim_time`). -/
structure DRState where
  wheel_base : ℝ
  wheel_radius : ℝ
  update_rate : ℝ
  integration_period : ℝ
  x : ℝ
  y : ℝ
  theta : ℝ
  omega_r : ℝ
  omega_l : ℝ
  sim_time : Option ℝ
  last_sim_time : Option ℝ

/-- The state built by `DeadReckoning.__init__` for given parameter values:
pose at the origin with heading `0`, wheel velocities `0`, both simulation
times unset. -/
def initState (wheel_base wheel_radius update_rate integration_period : ℝ) :
    DRState :=
  { wheel_base := wheel_base
    wheel_radius := wheel_radius
    update_rate := update_rate
    integration_period := integration_period
    x := 0
    y := 0
    theta := 0
    omega_r := 0
    omega_l := 0
    sim_time := none
    last_sim_time := none }

/-- `right_wheel_callback`: store the right wheel angular velocity. -/
def right_wheel_callback (s : DRState) (data : ℝ) : DRState :=
  { s with omega_r := data }

/-- `left_wheel_callback`: store the left wheel angular velocity. -/
def left_wheel_callback (s : DRState) (data : ℝ) : DRState :=
  { s with omega_l := data }

/-- `sim_time_callback`: store the current simulation time. -/
def sim_time_callback (s : DRState) (data : ℝ) : DRState :=
  { s with sim_time := some data }

/-- Embedding of `DeadReckoning.update_odometry`: one timer tick. Returns
the successor state and, when an integration step is performed, the
published odometry message and broadcast transform. -/
noncomputable def update_odometry (s : DRState) :
    DRState × Option (OdomMsg × TransformMsg) :=
  match s.sim_time with
  | none => (s, none)
  | some simT =>
    match s.last_sim_time with
    | none => ({ s with last_sim_time := some simT }, none)
    | some lastT =>
      let dt := simT - lastT
      if dt < s.integration_period then (s, none)
      else
        let v_r := s.wheel_radius * s.omega_r
        let v_l := s.wheel_radius * s.omega_l
        let V := 0.5 * (v_r + v_l)
        let Omega := (v_r - v_l) / s.wheel_base
        let x' := s.x + V * Real.cos s.theta * dt
        let y' := s.y + V * Real.sin s.theta * dt
        let theta' := wrap_to_pi (s.theta + Omega * dt)
        let quat := euler2quat 0 0 theta'
        let odom : OdomMsg :=
          { stamp := simT
            frame_id := "odom"
            child_frame_id := "base_footprint"
            position := ⟨x', y', 0⟩
            orientation := quat
            twist_linear := ⟨V, 0, 0⟩
            twist_angular := ⟨0, 0, Omega⟩ }
        let tfm : TransformMsg :=
          { stamp := simT
            frame_id := "odom"
            child_frame_id := "base_footprint"
            translation := ⟨x', y', 0⟩
            rotation := quat }
        ({ s with
            x := x'
            y := y'
            theta := theta'
            last_sim_time := some simT },
          some (odom, tfm))

/-- One externally triggered event of the node: a wheel-speed sample, a
simulation-time sample, or a timer tick. -/
inductive Op where
  | rightWheel (v : ℝ) : Op
  | leftWheel (v : ℝ) : Op
  | simTime (t : ℝ) : Op
  | tick : Op

/-- Apply one event to the node state (a tick's published messages are
dropped; only the state evolution matters here). -/
noncomputable def applyOp (s : DRState) : Op → DRState
  | .rightWheel v => right_wheel_callback s v
  | .leftWheel v => left_wheel_callback s v
  | .simTime t => sim_time_callback s t
  | .tick => (update_odometry s).1

/-- Run a sequence of events from a state. -/
noncomputable def runOps (s : DRState) (ops : List Op) : DRState :=
  ops.foldl applyOp s

/-- The three early-return conditions of `update_odometry` (the clock gate's
`NotReady` outcomes): simulation time not yet received, baseline not yet
seeded, or elapsed simulation time below `integration_period`. -/
def gateNotReady (s : DRState) : Prop :=
  s.sim_time = none ∨
  (∃ t, s.sim_time = some t ∧ s.last_sim_time = none) ∨
  (∃ t prev, s.sim_time = some t ∧ s.last_sim_time = some prev ∧
    t - prev < s.integration_period)

/-- The successor state of a performed integration step, as a function of
the pre-step state, the simulation time `t` used, and the elapsed `dt`. -/
noncomputable def stepState (s : DRState) (t dt : ℝ) : DRState :=
  { s with
      x := s.x + 0.5 * (s.wheel_radius * s.omega_r + s.wheel_radius * s.omega_l) *
        Real.cos s.theta * dt
      y := s.y + 0.5 * (s.wheel_radius * s.omega_r + s.wheel_radius * s.omega_l) *
        Real.sin s.theta * dt
      theta := wrap_to_pi (s.theta +
        (s.wheel_radius * s.omega_r - s.wheel_radius * s.omega_l) / s.wheel_base * dt)
      last_sim_time := some t }

/-- The odometry message published by a performed integration step. -/
noncomputable def stepOdom (s : DRState) (t dt : ℝ) : OdomMsg :=
  { stamp := t
    frame_id := "odom"
    child_frame_id := "base_footprint"
    position := ⟨(stepState s t dt).x, (stepState s t dt).y, 0⟩
    orientation := euler2quat 0 0 (stepState s t dt).theta
    twist_linear :=
      ⟨0.5 * (s.wheel_radius * s.omega_r + s.wheel_radius * s.omega_l), 0, 0⟩
    twist_angular :=
      ⟨0, 0, (s.wheel_radius * s.omega_r - s.wheel_radius * s.omega_l) / s.wheel_base⟩ }

/-- The transform broadcast by a performed integration step. -/
noncomputable def stepTf (s : DRState) (t dt : ℝ) : TransformMsg :=
  { stamp := t
    frame_id := "odom"
    child_frame_id := "base_footprint"
    translation := ⟨(stepState s t dt).x, (stepState s t dt).y, 0⟩
    rotation := euler2quat 0 0 (stepState s t dt).theta }

/-! ### Basic facts about `fmod` and `wrap_to_pi` -/

lemma fmod_bounds_of_nonneg {x y : ℝ} (hy : 0 < y) (hx : 0 ≤ x) :
    0 ≤ fmod x y ∧ fmod x y < y := by
  have hxy : 0 ≤ x / y := div_nonneg hx hy.le
  have htr : rtrunc (x / y) = ⌊x / y⌋ := if_pos hxy
  have heq : fmod x y = y * Int.fract (x / y) := by
    rw [fmod, htr, Int.fract]
    field_simp
  constructor
  · rw [heq]
    exact mul_nonneg hy.le (Int.fract_nonneg _)
  · rw [heq]
    calc y * Int.fract (x / y) < y * 1 :=
          mul_lt_mul_of_pos_left (Int.fract_lt_one _) hy
      _ = y := mul_one y

lemma fmod_bounds_of_neg {x y : ℝ} (hy : 0 < y) (hx : x < 0) :
    -y < fmod x y ∧ fmod x y ≤ 0 := by
  have hxy : x / y < 0 := div_neg_of_neg_of_pos hx hy
  have htr : rtrunc (x / y) = ⌈x / y⌉ := if_neg (not_le.2 hxy)
  have heq : fmod x y = y * (x / y - ⌈x / y⌉) := by
    rw [fmod, htr]
    field_simp
  have h1 : x / y - ⌈x / y⌉ ≤ 0 := sub_nonpos.2 (Int.le_ceil _)
  have h2 : -1 < x / y - ⌈x / y⌉ := by
    have := Int.ceil_lt_add_one (x / y)
    linarith
  constructor
  · rw [heq]
    nlinarith
  · rw [heq]
    nlinarith

lemma wrap_to_pi_mem_Ico (θ : ℝ) :
    -Real.pi ≤ wrap_to_pi θ ∧ wrap_to_pi θ < Real.pi := by
  have hm : (0 : ℝ) < 2 * Real.pi := by linarith [Real.pi_pos]
  simp only [wrap_to_pi]
  rcases le_or_lt 0 (θ + Real.pi) with h | h
  · obtain ⟨h0, h1⟩ := fmod_bounds_of_nonneg hm h
    rw [if_neg (not_lt.2 h0)]
    constructor <;> linarith
  · obtain ⟨h0, h1⟩ := fmod_bounds_of_neg hm h
    by_cases hr : fmod (θ + Real.pi) (2 * Real.pi) < 0
    · rw [if_pos hr]
      constructor <;> linarith
    · rw [if_neg hr]
      have h2 : fmod (θ + Real.pi) (2 * Real.pi) = 0 :=
        le_antisymm h1 (not_lt.1 hr)
      rw [h2]
      constructor <;> linarith [Real.pi_pos]

lemma wrap_to_pi_sub (θ : ℝ) :
    ∃ k : ℤ, wrap_to_pi θ = θ - 2 * Real.pi * k := by
  simp only [wrap_to_pi, fmod]
  by_cases hr :
      θ + Real.pi - 2 * Real.pi * rtrunc ((θ + Real.pi) / (2 * Real.pi)) < 0
  · rw [if_pos hr]
    refine ⟨rtrunc ((θ + Real.pi) / (2 * Real.pi)) - 1, ?_⟩
    push_cast
    ring
  · rw [if_neg hr]
    refine ⟨rtrunc ((θ + Real.pi) / (2 * Real.pi)), ?_⟩
    ring

lemma wrap_to_pi_eq_self {θ : ℝ} (h1 : -Real.pi ≤ θ) (h2 : θ < Real.pi) :
    wrap_to_pi θ = θ := by
  have hm : (0 : ℝ) < 2 * Real.pi := by linarith [Real.pi_pos]
  have ha : 0 ≤ θ + Real.pi := by linarith
  have hfl : ⌊(θ + Real.pi) / (2 * Real.pi)⌋ = 0 := by
    rw [Int.floor_eq_zero_iff, Set.mem_Ico]
    refine ⟨div_nonneg ha hm.le, ?_⟩
    rw [div_lt_one hm]
    linarith
  have htr : rtrunc ((θ + Real.pi) / (2 * Real.pi)) = 0 := by
    rw [rtrunc, if_pos (div_nonneg ha hm.le), hfl]
  simp only [wrap_to_pi, fmod, htr, Int.cast_zero, mul_zero, sub_zero]
  rw [if_neg (not_lt.2 ha)]
  ring

lemma wrap_to_pi_pi : wrap_to_pi Real.pi = -Real.pi := by
  have hm : (0 : ℝ) < 2 * Real.pi := by linarith [Real.pi_pos]
  have hdiv : (Real.pi + Real.pi) / (2 * Real.pi) = 1 := by
    rw [div_eq_one_iff_eq hm.ne']
    ring
  have htr : rtrunc ((Real.pi + Real.pi) / (2 * Real.pi)) = 1 := by
    rw [rtrunc, hdiv]
    norm_num
  have hz : Real.pi + Real.pi - 2 * Real.pi * ((1 : ℤ) : ℝ) = 0 := by
    push_cast
    ring
  simp only [wrap_to_pi, fmod, htr, hz]
  norm_num

lemma euler2quat_yaw (θ : ℝ) :
    euler2quat 0 0 θ = ⟨Real.cos (θ / 2), 0, 0, Real.sin (θ / 2)⟩ := by
  simp only [euler2quat, zero_div, Real.cos_zero, Real.sin_zero]
  norm_num

/-! ### Case equations for one tick of `update_odometry` -/

lemma update_odometry_no_time (s : DRState) (h : s.sim_time = none) :
    update_odometry s = (s, none) := by
  simp only [update_odometry, h]

lemma update_odometry_seed (s : DRState) (t : ℝ) (h : s.sim_time = some t)
    (hl : s.last_sim_time = none) :
    update_odometry s = ({ s with last_sim_time := some t }, none) := by
  simp only [update_odometry, h, hl]

lemma update_odometry_skip (s : DRState) (t prev : ℝ)
    (h : s.sim_time = some t) (hl : s.last_sim_time = some prev)
    (hdt : t - prev < s.integration_period) :
    update_odometry s = (s, none) := by
  simp only [update_odometry, h, hl]
  rw [if_pos hdt]

lemma update_odometry_ready (s : DRState) (t prev : ℝ)
    (h : s.sim_time = some t) (hl : s.last_sim_time = some prev)
    (hdt : ¬ (t - prev < s.integration_period)) :
    update_odometry s =
      (stepState s t (t - prev),
       some (stepOdom s t (t - prev), stepTf s t (t - prev))) := by
  simp only [update_odometry, h, hl, stepState, stepOdom, stepTf]
  rw [if_neg hdt]

lemma update_odometry_preserves (s : DRState) :
    (update_odometry s).1.wheel_base = s.wheel_base ∧
    (update_odometry s).1.wheel_radius = s.wheel_radius ∧
    (update_odometry s).1.integration_period = s.integration_period ∧
    (update_odometry s).1.omega_r = s.omega_r ∧
    (update_odometry s).1.omega_l = s.omega_l ∧
    (update_odometry s).1.sim_time = s.sim_time := by
  rcases hst : s.sim_time with _ | t
  · rw [update_odometry_no_time s hst]
    exact ⟨rfl, rfl, rfl, rfl, rfl, hst⟩
  · rcases hlt : s.last_sim_time with _ | prev
    · rw [update_odometry_seed s t hst hlt]
      exact ⟨rfl, rfl, rfl, rfl, rfl, hst⟩
    · by_cases hdt : t - prev < s.integration_period
      · rw [update_odometry_skip s t prev hst hlt hdt]
        exact ⟨rfl, rfl, rfl, rfl, rfl, hst⟩
      · rw [update_odometry_ready s t prev hst hlt hdt]
        exact ⟨rfl, rfl, rfl, rfl, rfl, hst⟩

/-- A state with the default parameter values of `__init__`
(`wheel_base = 0.119`, `wheel_radius = 0.027`, `update_rate = 40`,
`integration_period = 0.01`) whose clock tracker holds `sim_time = 1`
and `last_sim_time = 0`, so the next tick is ready. -/
def demoReady : DRState :=
  { initState 0.119 0.027 40 0.01 with
      sim_time := some 1
      last_sim_time := some 0 }

/-! ### Claims -/

/-- Claim C1, counterexample: `wrap_to_pi` applied to `π` returns `-π`,
which is outside the claimed canonical range `(-π, π]`. -/
theorem wrap_at_pi_leaves_Ioc :
    wrap_to_pi Real.pi = -Real.pi ∧
    ¬ (-Real.pi < wrap_to_pi Real.pi ∧ wrap_to_pi Real.pi ≤ Real.pi) := by
  refine ⟨wrap_to_pi_pi, ?_⟩
  rw [wrap_to_pi_pi]
  rintro ⟨hc, -⟩
  exact lt_irrefl _ hc

/-- Claim C1, amended: for every real `θ`, `wrap_to_pi θ` lies in the
half-open range `[-π, π)` (rather than `(-π, π]`) and is congruent to `θ`
modulo `2π`. -/
theorem wrap_range_and_congruence (θ : ℝ) :
    (-Real.pi ≤ wrap_to_pi θ ∧ wrap_to_pi θ < Real.pi) ∧
    ∃ k : ℤ, wrap_to_pi θ = θ - 2 * Real.pi * k :=
  ⟨wrap_to_pi_mem_Ico θ, wrap_to_pi_sub θ⟩

/-- Claim C2: on every tick whose clock gate is ready
(`sim_time = some t`, `last_sim_time = some prev`,
`integration_period ≤ t - prev`), the pose is advanced by exactly one Euler
step with `dt = t - prev`: `x += V·cos θ·dt`, `y += V·sin θ·dt`,
`θ := wrap(θ + Ω·dt)`, where `V = (v_r + v_l)/2`, `Ω = (v_r - v_l)/wheel_base`,
`v_r = wheel_radius·omega_r`, `v_l = wheel_radius·omega_l`, and the `θ` on
the right-hand sides is the pre-step heading. -/
theorem ready_tick_euler_step (s : DRState) (t prev : ℝ)
    (hs : s.sim_time = some t) (hl : s.last_sim_time = some prev)
    (hdt : s.integration_period ≤ t - prev) :
    (update_odometry s).1.x =
      s.x + (s.wheel_radius * s.omega_r + s.wheel_radius * s.omega_l) / 2 *
        Real.cos s.theta * (t - prev) ∧
    (update_odometry s).1.y =
      s.y + (s.wheel_radius * s.omega_r + s.wheel_radius * s.omega_l) / 2 *
        Real.sin s.theta * (t - prev) ∧
    (update_odometry s).1.theta =
      wrap_to_pi (s.theta +
        (s.wheel_radius * s.omega_r - s.wheel_radius * s.omega_l) /
          s.wheel_base * (t - prev)) := by
  rw [update_odometry_ready s t prev hs hl (not_lt.2 hdt)]
  refine ⟨?_, ?_, rfl⟩ <;> · simp only [stepState]; ring

/-- Witness for C2 at the concrete ready state `demoReady`. -/
theorem ready_tick_euler_step_witness :
    demoReady.sim_time = some 1 ∧ demoReady.last_sim_time = some 0 ∧
    demoReady.integration_period ≤ 1 - 0 ∧
    (update_odometry demoReady).1.x =
      demoReady.x + (demoReady.wheel_radius * demoReady.omega_r +
        demoReady.wheel_radius * demoReady.omega_l) / 2 *
        Real.cos demoReady.theta * (1 - 0) := by
  have hp : demoReady.integration_period ≤ (1 : ℝ) - 0 := by
    norm_num [demoReady, initState]
  exact ⟨rfl, rfl, hp, (ready_tick_euler_step demoReady 1 0 rfl rfl hp).1⟩

/-- Claim C3: the clock gate of `update_odometry` follows exactly the
four-case protocol: no simulation time → no-op; baseline unset → seed it,
no integration; `dt` below `integration_period` → no-op with baseline
unchanged; otherwise advance baseline to the current time and integrate with
exactly `dt = t - prev`. -/
theorem clock_gate_protocol (s : DRState) :
    (s.sim_time = none → update_odometry s = (s, none)) ∧
    (∀ t, s.sim_time = some t → s.last_sim_time = none →
      update_odometry s = ({ s with last_sim_time := some t }, none)) ∧
    (∀ t prev, s.sim_time = some t → s.last_sim_time = some prev →
      t - prev < s.integration_period → update_odometry s = (s, none)) ∧
    (∀ t prev, s.sim_time = some t → s.last_sim_time = some prev →
      s.integration_period ≤ t - prev →
      update_odometry s =
        (stepState s t (t - prev),
         some (stepOdom s t (t - prev), stepTf s t (t - prev)))) :=
  ⟨update_odometry_no_time s,
   fun t h hl => update_odometry_seed s t h hl,
   fun t prev h hl hdt => update_odometry_skip s t prev h hl hdt,
   fun t prev h hl hdt => update_odometry_ready s t prev h hl (not_lt.2 hdt)⟩

/-- Witness for C3: the ready case of the protocol at `demoReady`. -/
theorem clock_gate_protocol_witness :
    demoReady.sim_time = some 1 ∧ demoReady.last_sim_time = some 0 ∧
    demoReady.integration_period ≤ 1 - 0 ∧
    update_odometry demoReady =
      (stepState demoReady 1 (1 - 0),
       some (stepOdom demoReady 1 (1 - 0), stepTf demoReady 1 (1 - 0))) := by
  have hp : demoReady.integration_period ≤ (1 : ℝ) - 0 := by
    norm_num [demoReady, initState]
  exact ⟨rfl, rfl, hp, (clock_gate_protocol demoReady).2.2.2 1 0 rfl rfl hp⟩

/-- Claim C4: on every tick on which the clock gate is `NotReady` (time
unset, baseline just seeded, or `dt` below `integration_period`), the pose
fields are unchanged and no message pair is emitted. -/
theorem notready_tick_no_change (s : DRState) (h : gateNotReady s) :
    (update_odometry s).1.x = s.x ∧ (update_odometry s).1.y = s.y ∧
    (update_odometry s).1.theta = s.theta ∧ (update_odometry s).2 = none := by
  rcases h with h | ⟨t, h, hl⟩ | ⟨t, prev, h, hl, hdt⟩
  · rw [update_odometry_no_time s h]
    exact ⟨rfl, rfl, rfl, rfl⟩
  · rw [update_odometry_seed s t h hl]
    exact ⟨rfl, rfl, rfl, rfl⟩
  · rw [update_odometry_skip s t prev h hl hdt]
    exact ⟨rfl, rfl, rfl, rfl⟩

/-- Witness for C4 at the freshly initialized state, whose simulation time
is still unset. -/
theorem notready_tick_no_change_witness :
    gateNotReady (initState 0.119 0.027 40 0.01) ∧
    (update_odometry (initState 0.119 0.027 40 0.01)).1.x =
      (initState 0.119 0.027 40 0.01).x ∧
    (update_odometry (initState 0.119 0.027 40 0.01)).2 = none := by
  have hg : gateNotReady (initState 0.119 0.027 40 0.01) := Or.inl rfl
  have h := notready_tick_no_change (initState 0.119 0.027 40 0.01) hg
  exact ⟨hg, h.1, h.2.2.2⟩

/-- Claim C9: `wrap_to_pi` maps every real input into `[-π, π)`; in
particular `wrap_to_pi π = -π`, and the value `π` itself is never
returned. -/
theorem wrap_range_Ico_and_pi_to_neg_pi :
    (∀ θ : ℝ, -Real.pi ≤ wrap_to_pi θ ∧ wrap_to_pi θ < Real.pi) ∧
    wrap_to_pi Real.pi = -Real.pi ∧
    ∀ θ : ℝ, wrap_to_pi θ ≠ Real.pi :=
  ⟨wrap_to_pi_mem_Ico, wrap_to_pi_pi,
   fun θ => ne_of_lt (wrap_to_pi_mem_Ico θ).2⟩

/-- The event sequence that drives the heading to exactly `-π`: set the
right wheel to `π` rad/s, seed the clock at time `0` with one tick, then
tick again at time `1`, so the integration step computes
`θ = wrap(0 + π·1) = -π`. -/
noncomputable def spinOps : List Op :=
  [Op.rightWheel Real.pi, Op.simTime 0, Op.tick, Op.simTime 1, Op.tick]

/-- The state reached from a freshly initialized node
(`wheel_base = 1`, `wheel_radius = 1`) by running `spinOps`. -/
noncomputable def spinState : DRState :=
  runOps (initState 1 1 40 0.01) spinOps

lemma spinState_theta : spinState.theta = -Real.pi := by
  have h1 : spinState =
      (update_odometry
        { initState 1 1 40 0.01 with
            omega_r := Real.pi
            sim_time := some 1
            last_sim_time := some 0 }).1 := rfl
  have hdt : ¬ ((1 : ℝ) - 0 <
      ({ initState 1 1 40 0.01 with
          omega_r := Real.pi
          sim_time := some 1
          last_sim_time := some 0 } : DRState).integration_period) := by
    norm_num [initState]
  have h2 : spinState.theta =
      wrap_to_pi (0 + (1 * Real.pi - 1 * 0) / 1 * (1 - 0)) := by
    rw [h1, update_odometry_ready _ 1 0 rfl rfl hdt]
    rfl
  rw [h2, show (0 : ℝ) + (1 * Real.pi - 1 * 0) / 1 * (1 - 0) = Real.pi by ring,
    wrap_to_pi_pi]

/-- Claim C5, counterexample: the state reached from the initial state by
the event sequence `spinOps` has heading exactly `-π`, which lies outside
the claimed invariant range `(-π, π]`. -/
theorem theta_leaves_Ioc :
    spinState.theta = -Real.pi ∧
    ¬ (-Real.pi < spinState.theta ∧ spinState.theta ≤ Real.pi) := by
  refine ⟨spinState_theta, ?_⟩
  rw [spinState_theta]
  rintro ⟨hc, -⟩
  exact lt_irrefl _ hc

/-- Claim C5, amended: membership of the heading in the half-open range
`[-π, π)` (rather than `(-π, π]`) holds at process start and is preserved
by every operation of the estimator (wheel callbacks, time callback, and
each integration tick). -/
theorem theta_invariant_Ico (s : DRState)
    (h1 : -Real.pi ≤ s.theta) (h2 : s.theta < Real.pi) :
    (∀ wb wr ur p, -Real.pi ≤ (initState wb wr ur p).theta ∧
      (initState wb wr ur p).theta < Real.pi) ∧
    ∀ op, -Real.pi ≤ (applyOp s op).theta ∧ (applyOp s op).theta < Real.pi := by
  constructor
  · intro wb wr ur p
    simp only [initState]
    exact ⟨by linarith [Real.pi_pos], Real.pi_pos⟩
  · intro op
    cases op with
    | rightWheel v => exact ⟨h1, h2⟩
    | leftWheel v => exact ⟨h1, h2⟩
    | simTime t => exact ⟨h1, h2⟩
    | tick =>
      show -Real.pi ≤ (update_odometry s).1.theta ∧
        (update_odometry s).1.theta < Real.pi
      rcases hst : s.sim_time with _ | t
      · rw [update_odometry_no_time s hst]
        exact ⟨h1, h2⟩
      · rcases hlt : s.last_sim_time with _ | prev
        · rw [update_odometry_seed s t hst hlt]
          exact ⟨h1, h2⟩
        · by_cases hdt : t - prev < s.integration_period
          · rw [update_odometry_skip s t prev hst hlt hdt]
            exact ⟨h1, h2⟩
          · rw [update_odometry_ready s t prev hst hlt hdt]
            exact wrap_to_pi_mem_Ico _

/-- Witness for the amended C5 at the freshly initialized node and a tick
event. -/
theorem theta_invariant_Ico_witness :
    (-Real.pi ≤ (initState 1 1 40 0.01).theta ∧
      (initState 1 1 40 0.01).theta < Real.pi) ∧
    (-Real.pi ≤ (applyOp (initState 1 1 40 0.01) Op.tick).theta ∧
      (applyOp (initState 1 1 40 0.01) Op.tick).theta < Real.pi) := by
  have h1 : -Real.pi ≤ (initState 1 1 40 0.01).theta := by
    simp only [initState]
    linarith [Real.pi_pos]
  have h2 : (initState 1 1 40 0.01).theta < Real.pi := by
    simp only [initState]
    exact Real.pi_pos
  exact ⟨⟨h1, h2⟩, (theta_invariant_Ico _ h1 h2).2 Op.tick⟩

/-- Run a sequence of ticks, each preceded by a simulation-time sample. -/
noncomputable def runTicks (s : DRState) (ts : List ℝ) : DRState :=
  ts.foldl (fun st t => (update_odometry (sim_time_callback st t)).1) s

lemma tick_pose_fixed_of_zero (s : DRState)
    (hr : s.omega_r = 0) (hl : s.omega_l = 0)
    (h1 : -Real.pi ≤ s.theta) (h2 : s.theta < Real.pi) :
    (update_odometry s).1.x = s.x ∧ (update_odometry s).1.y = s.y ∧
    (update_odometry s).1.theta = s.theta := by
  rcases hst : s.sim_time with _ | t
  · rw [update_odometry_no_time s hst]
    exact ⟨rfl, rfl, rfl⟩
  · rcases hlt : s.last_sim_time with _ | prev
    · rw [update_odometry_seed s t hst hlt]
      exact ⟨rfl, rfl, rfl⟩
    · by_cases hdt : t - prev < s.integration_period
      · rw [update_odometry_skip s t prev hst hlt hdt]
        exact ⟨rfl, rfl, rfl⟩
      · rw [update_odometry_ready s t prev hst hlt hdt]
        simp only [stepState, hr, hl]
        refine ⟨by ring, by ring, ?_⟩
        rw [show s.theta + (s.wheel_radius * 0 - s.wheel_radius * 0) /
            s.wheel_base * (t - prev) = s.theta by ring]
        exact wrap_to_pi_eq_self h1 h2

lemma runTicks_pose_fixed (ts : List ℝ) :
    ∀ s : DRState, s.omega_r = 0 → s.omega_l = 0 →
    -Real.pi ≤ s.theta → s.theta < Real.pi →
    (runTicks s ts).x = s.x ∧ (runTicks s ts).y = s.y ∧
    (runTicks s ts).theta = s.theta := by
  induction ts with
  | nil =>
    intro s _ _ _ _
    exact ⟨rfl, rfl, rfl⟩
  | cons t ts ih =>
    intro s hr hl h1 h2
    have hstep := tick_pose_fixed_of_zero (sim_time_callback s t) hr hl h1 h2
    have hpres := update_odometry_preserves (sim_time_callback s t)
    have hr' : ((update_odometry (sim_time_callback s t)).1).omega_r = 0 :=
      hpres.2.2.2.1.trans hr
    have hl' : ((update_odometry (sim_time_callback s t)).1).omega_l = 0 :=
      hpres.2.2.2.2.1.trans hl
    have hth : ((update_odometry (sim_time_callback s t)).1).theta = s.theta :=
      hstep.2.2
    obtain ⟨ix, iy, ith⟩ :=
      ih ((update_odometry (sim_time_callback s t)).1) hr' hl'
        (hth ▸ h1) (hth ▸ h2)
    refine ⟨?_, ?_, ?_⟩
    · exact ix.trans hstep.1
    · exact iy.trans hstep.2.1
    · exact ith.trans hth

/-- Claim C6: with both wheel angular velocities zero (and the heading in
the canonical range, which is invariant), any number of repeated ticks
leaves `(x, y, theta)` unchanged, while a ready tick still advances the
clock baseline to the current simulation time. -/
theorem zero_input_fixed_point (s : DRState)
    (hr : s.omega_r = 0) (hl : s.omega_l = 0)
    (h1 : -Real.pi ≤ s.theta) (h2 : s.theta < Real.pi) :
    (∀ ts : List ℝ, (runTicks s ts).x = s.x ∧ (runTicks s ts).y = s.y ∧
      (runTicks s ts).theta = s.theta) ∧
    ∀ t prev, s.sim_time = some t → s.last_sim_time = some prev →
      s.integration_period ≤ t - prev →
      (update_odometry s).1.last_sim_time = some t := by
  refine ⟨fun ts => runTicks_pose_fixed ts s hr hl h1 h2, ?_⟩
  intro t prev hst hlt hdt
  rw [update_odometry_ready s t prev hst hlt (not_lt.2 hdt)]
  rfl

/-- Witness for C6 at `demoReady` (zero wheel speeds, ready clock) over the
tick sequence with simulation times `2` and `3.5`. -/
theorem zero_input_fixed_point_witness :
    demoReady.omega_r = 0 ∧ demoReady.omega_l = 0 ∧
    (-Real.pi ≤ demoReady.theta ∧ demoReady.theta < Real.pi) ∧
    (runTicks demoReady [2, 3.5]).x = demoReady.x ∧
    (runTicks demoReady [2, 3.5]).theta = demoReady.theta ∧
    (update_odometry demoReady).1.last_sim_time = some 1 := by
  have h1 : -Real.pi ≤ demoReady.theta := by
    simp only [demoReady, initState]
    linarith [Real.pi_pos]
  have h2 : demoReady.theta < Real.pi := by
    simp only [demoReady, initState]
    exact Real.pi_pos
  have h := zero_input_fixed_point demoReady rfl rfl h1 h2
  exact ⟨rfl, rfl, ⟨h1, h2⟩, (h.1 [2, 3.5]).1, (h.1 [2, 3.5]).2.2,
    h.2 1 0 rfl rfl (by norm_num [demoReady, initState])⟩

/-- Claim C7: on every ready tick, the emitted orientation quaternion is
`euler2quat 0 0 θ'` for the post-step heading `θ'`, which reduces to
`(w = cos(θ'/2), x = 0, y = 0, z = sin(θ'/2))`; the transform carries the
same quaternion. -/
theorem ready_tick_quaternion (s : DRState) (t prev : ℝ)
    (hs : s.sim_time = some t) (hl : s.last_sim_time = some prev)
    (hdt : s.integration_period ≤ t - prev) :
    ∃ odom tfm, (update_odometry s).2 = some (odom, tfm) ∧
      odom.orientation = euler2quat 0 0 (update_odometry s).1.theta ∧
      tfm.rotation = odom.orientation ∧
      odom.orientation =
        ⟨Real.cos ((update_odometry s).1.theta / 2), 0, 0,
         Real.sin ((update_odometry s).1.theta / 2)⟩ := by
  rw [update_odometry_ready s t prev hs hl (not_lt.2 hdt)]
  exact ⟨_, _, rfl, rfl, rfl, euler2quat_yaw _⟩

/-- Witness for C7 at `demoReady`. -/
theorem ready_tick_quaternion_witness :
    demoReady.integration_period ≤ 1 - 0 ∧
    ∃ odom tfm, (update_odometry demoReady).2 = some (odom, tfm) ∧
      odom.orientation =
        ⟨Real.cos ((update_odometry demoReady).1.theta / 2), 0, 0,
         Real.sin ((update_odometry demoReady).1.theta / 2)⟩ := by
  have hp : demoReady.integration_period ≤ (1 : ℝ) - 0 := by
    norm_num [demoReady, initState]
  obtain ⟨odom, tfm, hsome, _, _, hquat⟩ :=
    ready_tick_quaternion demoReady 1 0 rfl rfl hp
  exact ⟨hp, odom, tfm, hsome, hquat⟩

/-- Claim C8: every ready tick emits exactly one odometry message and one
transform, both stamped with the simulation time used for the step, both
with parent frame `"odom"` and child frame `"base_footprint"`; the odometry
carries position `(x, y, 0)`, the derived quaternion, linear velocity `V`
in the x component only and angular velocity `Ω` in the z component only,
and the transform carries the same stamp, translation equal to the position
and rotation equal to the same quaternion. -/
theorem ready_tick_outputs (s : DRState) (t prev : ℝ)
    (hs : s.sim_time = some t) (hl : s.last_sim_time = some prev)
    (hdt : s.integration_period ≤ t - prev) :
    ∃ odom tfm, (update_odometry s).2 = some (odom, tfm) ∧
      odom.stamp = t ∧ odom.frame_id = "odom" ∧
      odom.child_frame_id = "base_footprint" ∧
      odom.position = ⟨(update_odometry s).1.x, (update_odometry s).1.y, 0⟩ ∧
      odom.orientation = euler2quat 0 0 (update_odometry s).1.theta ∧
      odom.twist_linear =
        ⟨(s.wheel_radius * s.omega_r + s.wheel_radius * s.omega_l) / 2,
         0, 0⟩ ∧
      odom.twist_angular =
        ⟨0, 0, (s.wheel_radius * s.omega_r - s.wheel_radius * s.omega_l) /
          s.wheel_base⟩ ∧
      tfm.stamp = t ∧ tfm.frame_id = "odom" ∧
      tfm.child_frame_id = "base_footprint" ∧
      tfm.translation = odom.position ∧
      tfm.rotation = odom.orientation := by
  rw [update_odometry_ready s t prev hs hl (not_lt.2 hdt)]
  refine ⟨_, _, rfl, rfl, rfl, rfl, rfl, rfl, ?_, rfl, rfl, rfl, rfl, rfl, rfl⟩
  simp only [stepOdom]
  congr 1
  ring

/-- Witness for C8 at `demoReady`. -/
theorem ready_tick_outputs_witness :
    demoReady.integration_period ≤ 1 - 0 ∧
    ∃ odom tfm, (update_odometry demoReady).2 = some (odom, tfm) ∧
      odom.stamp = 1 ∧ odom.frame_id = "odom" ∧
      tfm.child_frame_id = "base_footprint" := by
  have hp : demoReady.integration_period ≤ (1 : ℝ) - 0 := by
    norm_num [demoReady, initState]
  obtain ⟨odom, tfm, hsome, hstamp, hframe, _, _, _, _, _, _, _, hchild, _, _⟩ :=
    ready_tick_outputs demoReady 1 0 rfl rfl hp
  exact ⟨hp, odom, tfm, hsome, hstamp, hframe, hchild⟩

lemma applyOp_integration_period (s : DRState) (op : Op) :
    (applyOp s op).integration_period = s.integration_period := by
  cases op with
  | rightWheel v => rfl
  | leftWheel v => rfl
  | simTime t => rfl
  | tick => exact (update_odometry_preserves s).2.2.1

lemma applyOp_baseline_mono (s : DRState) (hp : 0 ≤ s.integration_period)
    (b : ℝ) (hb : s.last_sim_time = some b) (op : Op) :
    ∃ b', (applyOp s op).last_sim_time = some b' ∧ b ≤ b' := by
  cases op with
  | rightWheel v => exact ⟨b, hb, le_refl b⟩
  | leftWheel v => exact ⟨b, hb, le_refl b⟩
  | simTime t => exact ⟨b, hb, le_refl b⟩
  | tick =>
    show ∃ b', (update_odometry s).1.last_sim_time = some b' ∧ b ≤ b'
    rcases hst : s.sim_time with _ | t
    · rw [update_odometry_no_time s hst]
      exact ⟨b, hb, le_refl b⟩
    · by_cases hdt : t - b < s.integration_period
      · rw [update_odometry_skip s t b hst hb hdt]
        exact ⟨b, hb, le_refl b⟩
      · rw [update_odometry_ready s t b hst hb hdt]
        refine ⟨t, rfl, ?_⟩
        have := not_lt.1 hdt
        linarith

lemma runOps_baseline_mono (ops : List Op) :
    ∀ s : DRState, 0 ≤ s.integration_period →
    ∀ b, s.last_sim_time = some b →
    ∃ b', (runOps s ops).last_sim_time = some b' ∧ b ≤ b' := by
  induction ops with
  | nil =>
    intro s _ b hb
    exact ⟨b, hb, le_refl b⟩
  | cons op ops ih =>
    intro s hp b hb
    obtain ⟨b1, hb1, hbb1⟩ := applyOp_baseline_mono s hp b hb op
    have hp1 : 0 ≤ (applyOp s op).integration_period := by
      rw [applyOp_integration_period]
      exact hp
    obtain ⟨b', hb', hb1b'⟩ := ih (applyOp s op) hp1 b1 hb1
    exact ⟨b', hb', le_trans hbb1 hb1b'⟩

/-- Claim C10: with `integration_period ≥ 0`, the clock baseline
`last_sim_time`, once set to `b`, never decreases across any sequence of
callbacks and ticks; a backwards time jump gives `dt < integration_period`
and leaves the baseline unchanged, and a ready tick sets the baseline to a
value at least `integration_period` above its previous value. -/
theorem baseline_monotone (s : DRState) (hp : 0 ≤ s.integration_period)
    (b : ℝ) (hb : s.last_sim_time = some b) :
    (∀ ops : List Op, ∃ b',
      (runOps s ops).last_sim_time = some b' ∧ b ≤ b') ∧
    (∀ t, s.sim_time = some t → t < b →
      t - b < s.integration_period ∧
      (update_odometry s).1.last_sim_time = some b) ∧
    (∀ t, s.sim_time = some t → s.integration_period ≤ t - b →
      (update_odometry s).1.last_sim_time = some t ∧
      b + s.integration_period ≤ t) := by
  refine ⟨fun ops => runOps_baseline_mono ops s hp b hb, ?_, ?_⟩
  · intro t hst htb
    have hdt : t - b < s.integration_period := by linarith
    refine ⟨hdt, ?_⟩
    rw [update_odometry_skip s t b hst hb hdt]
    exact hb
  · intro t hst hdt
    refine ⟨?_, by linarith⟩
    rw [update_odometry_ready s t b hst hb (not_lt.2 hdt)]
    rfl

/-- Witness for C10 at `demoReady` with one tick. -/
theorem baseline_monotone_witness :
    0 ≤ demoReady.integration_period ∧ demoReady.last_sim_time = some 0 ∧
    ∃ b', (runOps demoReady [Op.tick]).last_sim_time = some b' ∧
      (0 : ℝ) ≤ b' := by
  have hp : (0 : ℝ) ≤ demoReady.integration_period := by
    norm_num [demoReady, initState]
  exact ⟨hp, rfl, (baseline_monotone demoReady hp 0 rfl).1 [Op.tick]⟩

end CoppeliaDiffDrive
